import Mathlib

/-!
Verification development for the `logic-korean` quiz application
(`src/app/page.tsx`).  The React component is shallowly embedded: the
`useState` hooks become fields of an explicit `SessionState` record, each
event handler becomes a pure function on that record, and the one
outgoing network effect (the score POST in `finishQuiz`) is modelled as
an emitted `Report` event returned next to the new state.  JavaScript
truthiness tests on strings (`if (selectedOption)`, `row.options ? … : …`,
`item.question && item.answer && …`) are embedded as non-emptiness tests,
and the out-of-range array read `quizItems[currentQuestionIndex]` (a
crash in JavaScript) is totalised with a default element; every theorem
that touches the current question carries an in-bounds hypothesis.
-/

namespace LogicKorean

/-- JavaScript `String.prototype.trim` on the character list: strip
leading and trailing whitespace.  (Defined over `List Char` so that the
kernel can evaluate it on concrete inputs.) -/
def trimChars (s : List Char) : List Char :=
  (((s.dropWhile Char.isWhitespace).reverse).dropWhile Char.isWhitespace).reverse

/-- JavaScript `s.trim()`. -/
def jsTrim (s : String) : String := ⟨trimChars s.data⟩

/-- Splits a character list at every comma, like JavaScript
`s.split(",")`: `"a,"` yields `["a", ""]` and `""` yields `[""]`. -/
def splitCommaAux : List Char → List Char → List (List Char)
  | [], acc => [acc.reverse]
  | c :: cs, acc =>
      if c = ',' then acc.reverse :: splitCommaAux cs []
      else splitCommaAux cs (c :: acc)

/-- JavaScript `s.split(",")`. -/
def jsSplitComma (s : String) : List String :=
  (splitCommaAux s.data []).map (fun l => ⟨l⟩)

/-- The `QuizItem` interface of `page.tsx`. -/
structure QuizItem where
  id : Nat
  category : String
  question : String
  korean : String
  answer : String
  options : List String
  explanation : String
deriving DecidableEq, Repr, Inhabited

/-- One raw CSV row as delivered by the parser with `header: true`:
string-keyed fields for the recognized headers.  A missing field
(`undefined` in JavaScript) is modelled as `""`, which is falsy exactly
like `undefined` in every truthiness test the code performs on it. -/
structure RawRow where
  category : String
  question : String
  korean : String
  answer : String
  options : String
  explanation : String
deriving DecidableEq, Repr, Inhabited

/-- The body of the `map` callback in `fetchQuizData` (page.tsx lines
50-58): builds a `QuizItem` from a row and its 0-based input index,
assigning `id := index + 1` and splitting the comma-separated `options`
field into trimmed strings (`row.options ? row.options.split(",").map(trim) : []`). -/
def mkItem (index : Nat) (row : RawRow) : QuizItem :=
  { id := index + 1
    category := row.category
    question := row.question
    korean := row.korean
    answer := row.answer
    options := if row.options ≠ "" then (jsSplitComma row.options).map jsTrim else []
    explanation := row.explanation }

/-- The `filter` predicate of `fetchQuizData`:
`item.question && item.answer && item.options.length > 0`. -/
def keepItem (it : QuizItem) : Bool :=
  it.question ≠ "" && it.answer ≠ "" && decide (0 < it.options.length)

/-- The normalization pipeline of `fetchQuizData`:
`results.data.map((row, index) => ({...})).filter(item => ...)`. -/
def normalize (rows : List RawRow) : List QuizItem :=
  (rows.enum.map (fun p => mkItem p.1 p.2)).filter keepItem

/-- The sampling step `shuffled.slice(0, 20)` of `fetchQuizData`,
generalised over the truncation length; the program instantiates `n`
with 20.  `shuffled` is the result of `parsedData.sort(() => 0.5 - Math.random())`,
which for any outcome of the randomness source is some permutation of
`parsedData`; theorems quantify over that permutation. -/
def sample (shuffled : List QuizItem) (n : Nat) : List QuizItem :=
  shuffled.take n

/-- The `step` state of `page.tsx`: `"login" | "quiz" | "result"`. -/
inductive Step where
  | login
  | quiz
  | result
deriving DecidableEq, Repr

/-- The session state: one field per `useState` hook of the component
(the `loading` and `error` flags of the data-load phase are outside the
session proper and are not claims' subject matter). -/
structure SessionState where
  step : Step
  userName : String
  quizItems : List QuizItem
  currentQuestionIndex : Nat
  score : Nat
  selectedOption : Option String
  isCorrect : Option Bool
  showExplanation : Bool
deriving DecidableEq, Repr

/-- JavaScript truthiness of a `string | null` value: `null` and `""`
are falsy, every other string is truthy.  This is the test performed by
`if (selectedOption) return;` and by the UI conditions
`disabled={!!selectedOption}` and `{selectedOption && ...}`. -/
def strTruthy : Option String → Bool
  | none => false
  | some s => s ≠ ""

/-- The component's initial state: `useState("login")`, `useState("")`,
`useState(0)`, `useState(0)`, `useState(null)`, `useState(null)`,
`useState(false)`, with `quizItems` populated once by the data-load
effect. -/
def initState (items : List QuizItem) : SessionState :=
  { step := Step.login
    userName := ""
    quizItems := items
    currentQuestionIndex := 0
    score := 0
    selectedOption := none
    isCorrect := none
    showExplanation := false }

/-- The `handleStartQuiz` handler (lines 85-91): if `!userName.trim()`
an alert is shown (modelled by the returned `Bool`) and nothing changes;
otherwise `setStep("quiz")`. -/
def handleStartQuiz (s : SessionState) : SessionState × Bool :=
  if jsTrim s.userName = "" then (s, true)
  else ({ s with step := Step.quiz }, false)

/-- The current question `quizItems[currentQuestionIndex]` (line 233);
the out-of-range read, which yields `undefined` in JavaScript and makes
any field access crash, is totalised with a default element — theorems
about it carry an in-bounds hypothesis. -/
def currentItem (s : SessionState) : QuizItem :=
  s.quizItems.getD s.currentQuestionIndex default

/-- The `handleOptionClick` handler (lines 93-103): returns unchanged if
`selectedOption` is truthy; otherwise records the selection, compares the
option against `quizItems[currentQuestionIndex].answer` by exact string
equality, increments `score` on a match, and reveals the explanation. -/
def handleOptionClick (option : String) (s : SessionState) : SessionState :=
  if strTruthy s.selectedOption then s
  else
    let correct : Bool := option = (currentItem s).answer
    { s with
      selectedOption := some option
      isCorrect := some correct
      score := if correct then s.score + 1 else s.score
      showExplanation := true }

/-- One score submission to the collector endpoint: the JSON body
`{name, score, date}` POSTed by `finishQuiz`.  The HTTP response is
never inspected by the code, so the event carries no reply. -/
structure Report where
  name : String
  score : Nat
  date : String
deriving DecidableEq, Repr

/-- The `finishQuiz` handler (lines 117-139): `setStep("result")` and
one fire-and-forget POST of the final name, score and
`new Date().toISOString()`; `now` stands for the clock reading.  Any
network failure is caught and discarded, so the returned state does not
depend on the report's fate. -/
def finishQuiz (now : String) (s : SessionState) : SessionState × List Report :=
  ({ s with step := Step.result }, [{ name := s.userName, score := s.score, date := now }])

/-- The `handleNext` handler (lines 105-115): clears the interaction
state, then either advances `currentQuestionIndex` (when
`currentQuestionIndex < quizItems.length - 1`, with JavaScript's `-1`
on an empty list agreeing with truncated `Nat` subtraction here) or
calls `finishQuiz`. -/
def handleNext (now : String) (s : SessionState) : SessionState × List Report :=
  let s := { s with selectedOption := none, isCorrect := none, showExplanation := false }
  if s.currentQuestionIndex < s.quizItems.length - 1 then
    ({ s with currentQuestionIndex := s.currentQuestionIndex + 1 }, [])
  else
    finishQuiz now s

/-- The session states reachable through the rendered UI.  `init` is the
freshly mounted component after the data-load effect stored a sample of
the normalized rows (any permutation of them, since the shuffle is
random); `typeName` is the login screen's name input; `start` the Start
button; `select` an option button, which only exists on the quiz screen
when the current question is in range (`if (!currentQuestion) return …`
at line 235 guards the quiz screen) — the option string is left
arbitrary because `handleOptionClick` itself never checks membership;
`next` the Next button, rendered only when `selectedOption` is truthy. -/
inductive Reachable : SessionState → Prop where
  | init : ∀ rows shuffled, shuffled.Perm (normalize rows) →
      Reachable (initState (sample shuffled 20))
  | typeName : ∀ s n, Reachable s → s.step = Step.login →
      Reachable { s with userName := n }
  | start : ∀ s, Reachable s → s.step = Step.login →
      Reachable (handleStartQuiz s).1
  | select : ∀ s o, Reachable s → s.step = Step.quiz →
      s.currentQuestionIndex < s.quizItems.length →
      Reachable (handleOptionClick o s)
  | next : ∀ s now, Reachable s → s.step = Step.quiz →
      strTruthy s.selectedOption = true →
      Reachable (handleNext now s).1

/-- The session states reachable when the operations are invoked as bare
functions, with no regard for the phase or the lock — the closure of the
initial states under arbitrary `start` / `selectOption` / `advance`
calls (and name edits).  Every UI-reachable state is also reachable
here. -/
inductive ReachableAny : SessionState → Prop where
  | init : ∀ rows shuffled, shuffled.Perm (normalize rows) →
      ReachableAny (initState (sample shuffled 20))
  | typeName : ∀ s n, ReachableAny s → ReachableAny { s with userName := n }
  | start : ∀ s, ReachableAny s → ReachableAny (handleStartQuiz s).1
  | select : ∀ s o, ReachableAny s → ReachableAny (handleOptionClick o s)
  | next : ∀ s now, ReachableAny s → ReachableAny (handleNext now s).1

/-- Structural invariant maintained by arbitrary operation sequences:
the pool consists of records that passed the normalization filter, and
the current index stays inside a non-empty pool. -/
def PoolInv (s : SessionState) : Prop :=
  (∀ it ∈ s.quizItems, keepItem it = true) ∧
  (s.quizItems ≠ [] → s.currentQuestionIndex < s.quizItems.length)

/-- Invariant maintained by the UI-sanctioned operations: pool validity
and index bounds as in `PoolInv`, a pristine interaction state on the
login screen, and the score bounds `score ≤ index` before the current
question is (truthily) answered, `score ≤ index + 1` after. -/
def Inv (s : SessionState) : Prop :=
  (∀ it ∈ s.quizItems, keepItem it = true) ∧
  (s.quizItems ≠ [] → s.currentQuestionIndex < s.quizItems.length) ∧
  (s.step = Step.login → s.currentQuestionIndex = 0 ∧ s.score = 0 ∧ s.selectedOption = none) ∧
  (s.step = Step.quiz →
     if strTruthy s.selectedOption then s.score ≤ s.currentQuestionIndex + 1
     else s.score ≤ s.currentQuestionIndex) ∧
  (s.step = Step.result → s.score ≤ s.currentQuestionIndex + 1)

/-!
Concrete rows, items and states used by witnesses and counterexamples.
-/

/-- A well-formed item for sampling witnesses. -/
def itA : QuizItem :=
  { id := 1, category := "c", question := "q1", korean := "k_", answer := "a",
    options := ["a", "b"], explanation := "e1" }

/-- A second well-formed item for sampling witnesses. -/
def itB : QuizItem :=
  { id := 2, category := "c", question := "q2", korean := "k_", answer := "b",
    options := ["a", "b"], explanation := "e2" }

/-- A fully well-formed raw row (answer `"a"`, options `a,b`). -/
def c3Row : RawRow :=
  { category := "c", question := "q", korean := "k_", answer := "a",
    options := "a,b", explanation := "e" }

/-- A one-question session on `c3Row` with its question answered:
login as `"mia"`, start, select `"a"`. -/
def c3Last : SessionState :=
  handleOptionClick "a"
    (handleStartQuiz { initState (sample (normalize [c3Row]) 20) with userName := "mia" }).1

/-- The state one `advance` into a two-question session on `c3Row`. -/
def c10State : SessionState :=
  (handleNext "t"
    (handleOptionClick "a"
      (handleStartQuiz { initState (sample (normalize [c3Row, c3Row]) 20) with
        userName := "joe" }).1)).1

/-- A raw row whose `options` field `"a,"` has a trailing comma, so its
normalized options list is `["a", ""]` — it contains the empty string. -/
def c1Row : RawRow :=
  { category := "c", question := "q", korean := "k_", answer := "a",
    options := "a,", explanation := "e" }

/-- The quiz screen of a one-question session on `c1Row`. -/
def c1Quiz : SessionState :=
  (handleStartQuiz { initState (sample (normalize [c1Row]) 20) with userName := "bob" }).1

/-- The state of `c1Quiz` after selecting the empty-string option. -/
def c1Sel : SessionState := handleOptionClick "" c1Quiz

/-- The state of `c1Quiz` after selecting the non-empty option `"a"`. -/
def c1Locked : SessionState := handleOptionClick "a" c1Quiz

/-- A well-formed raw row with answer `"a"` among options `a,b`. -/
def c2Row : RawRow :=
  { category := "c", question := "q", korean := "k_", answer := "a",
    options := "a,b", explanation := "e" }

/-- The quiz screen of a one-question session on `c2Row`. -/
def c2Quiz : SessionState :=
  (handleStartQuiz { initState (sample (normalize [c2Row]) 20) with userName := "amy" }).1

/-- The state of `c2Quiz` locked by the wrong answer `"b"`. -/
def c2Locked : SessionState := handleOptionClick "b" c2Quiz

/-- A raw row with an empty `explanation` whose `options` list `b,c`
does not contain its `answer` `"a"`. -/
def c4Row : RawRow :=
  { category := "c", question := "q", korean := "k_", answer := "a",
    options := "b,c", explanation := "" }

/-- A raw row with an empty `question`, dropped by the filter. -/
def c5Bad : RawRow :=
  { category := "c", question := "", korean := "k_", answer := "a",
    options := "a,b", explanation := "e" }

/-- A well-formed raw row that survives the filter. -/
def c5Good : RawRow :=
  { category := "c", question := "q", korean := "k_", answer := "a",
    options := "a,b", explanation := "e" }

/-- A well-formed raw row for the precondition-violation scenarios. -/
def c8Row : RawRow :=
  { category := "c", question := "q", korean := "k_", answer := "a",
    options := "a,b", explanation := "e" }

/-- The login screen of a two-question session, name already typed. -/
def c8Login : SessionState :=
  { initState (sample (normalize [c8Row, c8Row]) 20) with userName := "kim" }

/-- The quiz screen right after starting from `c8Login`: no selection. -/
def c8Quiz : SessionState := (handleStartQuiz c8Login).1

/-- A raw row whose options contain the empty string (trailing comma). -/
def c9Row : RawRow :=
  { category := "c", question := "q", korean := "k_", answer := "a",
    options := "a,", explanation := "e" }

/-- The quiz screen of a one-question session on `c9Row`. -/
def c9Quiz : SessionState :=
  (handleStartQuiz { initState (sample (normalize [c9Row]) 20) with userName := "joe" }).1

/-!
Shared lemmas.
-/

/-- Every record surviving normalization passed the code's filter. -/
theorem keepItem_of_mem_normalize {rows : List RawRow} {it : QuizItem}
    (h : it ∈ normalize rows) : keepItem it = true :=
  (List.mem_filter.mp h).2

/-- The filter in particular forces a non-empty `answer` field. -/
theorem answer_ne_of_keep {it : QuizItem} (h : keepItem it = true) : it.answer ≠ "" := by
  simp [keepItem] at h
  exact h.1.2

/-- With the index in range, the current question is a pool element. -/
theorem currentItem_mem {s : SessionState}
    (h : s.currentQuestionIndex < s.quizItems.length) : currentItem s ∈ s.quizItems := by
  rw [currentItem, List.getD_eq_getElem _ _ h]
  exact List.getElem_mem _

/-- A truthy recorded selection makes `handleOptionClick` a no-op. -/
theorem handleOptionClick_locked {s : SessionState}
    (h : strTruthy s.selectedOption = true) (o : String) :
    handleOptionClick o s = s := by
  simp [handleOptionClick, h]

/-- Without a truthy recorded selection, `handleOptionClick` records
the passed option. -/
theorem handleOptionClick_sel {s : SessionState}
    (h : strTruthy s.selectedOption = false) (o : String) :
    (handleOptionClick o s).selectedOption = some o := by
  simp [handleOptionClick, h]

/-- Arbitrary operation sequences preserve the structural invariant. -/
theorem reachableAny_poolInv {s : SessionState} (h : ReachableAny s) : PoolInv s := by
  induction h with
  | init rows shuffled hperm =>
      refine ⟨fun it hit => ?_, fun hne => ?_⟩
      · exact keepItem_of_mem_normalize (hperm.mem_iff.mp (List.take_subset _ _ hit))
      · simpa [initState, sample] using List.length_pos.mpr hne
  | typeName s n _ ih => exact ih
  | start s _ ih =>
      by_cases hn : jsTrim s.userName = "" <;> simp [handleStartQuiz, hn] <;> exact ih
  | select s o _ ih =>
      by_cases ht : strTruthy s.selectedOption <;> simp [handleOptionClick, ht] <;> exact ih
  | next s now _ ih =>
      by_cases hlt : s.currentQuestionIndex < s.quizItems.length - 1
      · simp only [handleNext, hlt, if_pos, PoolInv] at ih ⊢
        exact ⟨ih.1, fun _ => by omega⟩
      · simp only [handleNext, hlt, if_neg, PoolInv, finishQuiz] at ih ⊢
        exact ih

/-- The UI-sanctioned operations preserve the full invariant. -/
theorem reachable_inv {s : SessionState} (h : Reachable s) : Inv s := by
  induction h with
  | init rows shuffled hperm =>
      refine ⟨fun it hit => ?_, fun hne => ?_, fun _ => ⟨rfl, rfl, rfl⟩, ?_, ?_⟩
      · exact keepItem_of_mem_normalize (hperm.mem_iff.mp (List.take_subset _ _ hit))
      · simpa [initState, sample] using List.length_pos.mpr hne
      · simp [initState]
      · simp [initState]
  | typeName s n _ hstep ih => exact ih
  | start s _ hstep ih =>
      by_cases hn : jsTrim s.userName = ""
      · simpa [handleStartQuiz, hn] using ih
      · obtain ⟨hpool, hidx, hlogin, _, _⟩ := ih
        obtain ⟨hi0, hs0, hsel⟩ := hlogin hstep
        have heq : (handleStartQuiz s).1 = { s with step := Step.quiz } := by
          simp [handleStartQuiz, hn]
        rw [heq]
        exact ⟨hpool, hidx, by simp, by simp [hsel, hs0, strTruthy, hi0], by simp⟩
  | select s o _ hstep hlt ih =>
      by_cases ht : strTruthy s.selectedOption
      · simpa [handleOptionClick, ht] using ih
      · obtain ⟨hpool, hidx, _, hquiz, _⟩ := ih
        have hscore : s.score ≤ s.currentQuestionIndex := by
          simpa [ht] using hquiz hstep
        have hans : (currentItem s).answer ≠ "" :=
          answer_ne_of_keep (hpool _ (currentItem_mem hlt))
        by_cases ho : o = (currentItem s).answer
        · have heq : handleOptionClick o s =
              { s with selectedOption := some o, isCorrect := some true,
                       score := s.score + 1, showExplanation := true } := by
            simp [handleOptionClick, ht, ho]
          rw [heq]
          refine ⟨hpool, hidx, by simp [hstep], fun _ => ?_, by simp [hstep]⟩
          have hso : strTruthy (some o) = true := by
            simp only [strTruthy, decide_eq_true_eq]
            rw [ho]
            exact hans
          simp only [hso, if_pos]
          show s.score + 1 ≤ s.currentQuestionIndex + 1
          omega
        · have heq : handleOptionClick o s =
              { s with selectedOption := some o, isCorrect := some false,
                       score := s.score, showExplanation := true } := by
            simp [handleOptionClick, ht, ho]
          rw [heq]
          refine ⟨hpool, hidx, by simp [hstep], fun _ => ?_, by simp [hstep]⟩
          by_cases h2 : strTruthy (some o) = true <;> simp only [h2, if_pos, if_neg] <;>
            show s.score ≤ _ <;> omega
  | next s now _ hstep htr ih =>
      obtain ⟨hpool, hidx, _, hquiz, _⟩ := ih
      have hscore : s.score ≤ s.currentQuestionIndex + 1 := by
        simpa [htr] using hquiz hstep
      by_cases hlt : s.currentQuestionIndex < s.quizItems.length - 1
      · have heq : (handleNext now s).1 =
            { s with selectedOption := none, isCorrect := none, showExplanation := false,
                     currentQuestionIndex := s.currentQuestionIndex + 1 } := by
          simp [handleNext, hlt]
        rw [heq]
        refine ⟨hpool, fun _ => ?_, by simp [hstep], fun _ => ?_, by simp [hstep]⟩
        · show s.currentQuestionIndex + 1 < s.quizItems.length
          omega
        · show if strTruthy none then _ ≤ _ else s.score ≤ s.currentQuestionIndex + 1
          simp [strTruthy]
          omega
      · have heq : (handleNext now s).1 =
            { s with selectedOption := none, isCorrect := none, showExplanation := false,
                     step := Step.result } := by
          simp [handleNext, finishQuiz, hlt]
        rw [heq]
        exact ⟨hpool, hidx, by simp, by simp, fun _ => hscore⟩

/-!
Claim C1 — single-lock no-op.
-/

/-- Claim C1, counterexample: a UI-reachable Active state in which a
selection has already been made (the empty-string option, present in
the pool after normalizing an `options` field with a trailing comma)
but in which a second `selectOption` call still changes both the
selection and the score — the guard `if (selectedOption)` tests
truthiness, and `""` is falsy, so the first selection did not lock. -/
theorem single_lock_cex :
    Reachable c1Sel ∧
    c1Sel.step = Step.quiz ∧
    c1Sel.selectedOption = some "" ∧
    "" ∈ (currentItem c1Sel).options ∧
    (handleOptionClick "a" c1Sel).selectedOption = some "a" ∧
    (handleOptionClick "a" c1Sel).score = c1Sel.score + 1 := by
  refine ⟨?_, by decide, by decide, by decide, by decide, by decide⟩
  exact Reachable.select _ ""
    (Reachable.start _
      (Reachable.typeName _ "bob"
        (Reachable.init [c1Row] (normalize [c1Row]) (List.Perm.refl _)) rfl) rfl)
    (by decide) (by decide)

/-- Claim C1, amended: the code's lock is string truthiness, so the
no-op guarantee holds exactly for states whose recorded selection is a
non-empty string: there every further `selectOption` call, whatever the
option, leaves the whole state (score, selection, lock included)
unchanged.  A recorded empty-string selection does not lock (see the
counterexample). -/
theorem single_lock_amended (s : SessionState) (o o2 : String)
    (hr : Reachable s) (hstep : s.step = Step.quiz)
    (hsel : s.selectedOption = some o) (hne : o ≠ "") :
    handleOptionClick o2 s = s := by
  simp [handleOptionClick, strTruthy, hsel, hne]

/-- Claim C1, witness: the amended no-op evaluated on a concrete
reachable state locked by the non-empty selection `"a"`. -/
theorem single_lock_amended_witness :
    handleOptionClick "b" c1Locked = c1Locked :=
  single_lock_amended c1Locked "a" "b"
    (Reachable.select _ "a"
      (Reachable.start _
        (Reachable.typeName _ "bob"
          (Reachable.init [c1Row] (normalize [c1Row]) (List.Perm.refl _)) rfl) rfl)
      (by decide) (by decide))
    (by decide) (by decide) (by decide)

/-!
Claim C2 — score monotonicity.
-/

/-- Claim C2, counterexample: on a reachable locked state the passed
option equals `pool[index].answer` and yet the score is not
incremented — the "incremented exactly when the option equals the
answer" reading fails on locked states, where every call is a no-op. -/
theorem score_monotonicity_cex :
    Reachable c2Locked ∧
    (currentItem c2Locked).answer = "a" ∧
    (handleOptionClick "a" c2Locked).score = c2Locked.score := by
  refine ⟨?_, by decide, by decide⟩
  exact Reachable.select _ "b"
    (Reachable.start _
      (Reachable.typeName _ "amy"
        (Reachable.init [c2Row] (normalize [c2Row]) (List.Perm.refl _)) rfl) rfl)
    (by decide) (by decide)

/-- Claim C2, amended: on every reachable state a `selectOption` call
changes the score by 0 or +1, never decreases it, and increments it
exactly when the question is not yet locked (no truthy selection) and
the option equals `pool[index].answer`; the score never exceeds
`index + 1`; `advance` and `start` never change the score, so
`selectOption` is the only score-changing operation. -/
theorem score_monotonicity_amended (s : SessionState) (o now : String)
    (hr : Reachable s) :
    ((handleOptionClick o s).score = s.score ∨
       (handleOptionClick o s).score = s.score + 1) ∧
    s.score ≤ (handleOptionClick o s).score ∧
    ((handleOptionClick o s).score = s.score + 1 ↔
       (strTruthy s.selectedOption = false ∧ o = (currentItem s).answer)) ∧
    s.score ≤ s.currentQuestionIndex + 1 ∧
    (handleNext now s).1.score = s.score ∧
    (handleStartQuiz s).1.score = s.score := by
  have hbound : s.score ≤ s.currentQuestionIndex + 1 := by
    obtain ⟨_, _, hlogin, hquiz, hres⟩ := reachable_inv hr
    cases hstep : s.step with
    | login => simp [(hlogin hstep).2.1]
    | quiz =>
        have := hquiz hstep
        by_cases ht : strTruthy s.selectedOption <;> simp [ht] at this <;> omega
    | result => exact hres hstep
  have hnext : (handleNext now s).1.score = s.score := by
    by_cases hlt : s.currentQuestionIndex < s.quizItems.length - 1 <;>
      simp [handleNext, finishQuiz, hlt]
  have hstart : (handleStartQuiz s).1.score = s.score := by
    by_cases hn : jsTrim s.userName = "" <;> simp [handleStartQuiz, hn]
  by_cases ht : strTruthy s.selectedOption
  · simp [handleOptionClick, ht, hbound, hnext, hstart]
  · by_cases ho : o = (currentItem s).answer <;>
      simp [handleOptionClick, ht, ho, hbound, hnext, hstart]

/-- Claim C2, witness: the amended monotonicity evaluated on a concrete
reachable unlocked state with the correct option. -/
theorem score_monotonicity_amended_witness :
    ((handleOptionClick "a" c2Quiz).score = c2Quiz.score ∨
       (handleOptionClick "a" c2Quiz).score = c2Quiz.score + 1) ∧
    c2Quiz.score ≤ (handleOptionClick "a" c2Quiz).score ∧
    ((handleOptionClick "a" c2Quiz).score = c2Quiz.score + 1 ↔
       (strTruthy c2Quiz.selectedOption = false ∧ "a" = (currentItem c2Quiz).answer)) ∧
    c2Quiz.score ≤ c2Quiz.currentQuestionIndex + 1 ∧
    (handleNext "t" c2Quiz).1.score = c2Quiz.score ∧
    (handleStartQuiz c2Quiz).1.score = c2Quiz.score :=
  score_monotonicity_amended c2Quiz "a" "t"
    (Reachable.start _
      (Reachable.typeName _ "amy"
        (Reachable.init [c2Row] (normalize [c2Row]) (List.Perm.refl _)) rfl) rfl)

/-!
Claim C3 — terminal transition.
-/

/-- Claim C3 (terminal transition): on an Active state showing the last
question with the answer locked in, `advance()` moves the phase to
`Finished` and emits exactly one report, carrying the final name, the
final score and the timestamp; the state machine's result does not
depend on the report's outcome (the emitted event carries no reply). -/
theorem terminal_transition (s : SessionState) (now : String)
    (hstep : s.step = Step.quiz) (hlock : strTruthy s.selectedOption = true)
    (hlast : s.currentQuestionIndex = s.quizItems.length - 1) :
    (handleNext now s).1.step = Step.result ∧
    (handleNext now s).2 = [{ name := s.userName, score := s.score, date := now }] ∧
    (handleNext now s).2.length = 1 := by
  have hnot : ¬ s.currentQuestionIndex < s.quizItems.length - 1 := by omega
  refine ⟨?_, ?_, ?_⟩ <;> simp [handleNext, finishQuiz, hnot]

/-- Claim C3, witness: the terminal transition evaluated on a concrete
one-question session whose only question has been answered. -/
theorem terminal_transition_witness :
    (handleNext "2026-01-01T00:00:00Z" c3Last).1.step = Step.result ∧
    (handleNext "2026-01-01T00:00:00Z" c3Last).2 =
      [{ name := c3Last.userName, score := c3Last.score, date := "2026-01-01T00:00:00Z" }] ∧
    (handleNext "2026-01-01T00:00:00Z" c3Last).2.length = 1 :=
  terminal_transition c3Last "2026-01-01T00:00:00Z" (by decide) (by decide) (by decide)

/-!
Claim C4 — normalization validity.
-/

/-- Claim C4, counterexample: a row with an empty `explanation` and an
`options` list not containing `answer` survives normalization — the
code's filter checks only `question`, `answer` and `options.length`. -/
theorem normalization_validity_cex :
    ((normalize [c4Row]).getD 0 default) ∈ normalize [c4Row] ∧
    ((normalize [c4Row]).getD 0 default).explanation = "" ∧
    ((normalize [c4Row]).getD 0 default).answer ∉
      ((normalize [c4Row]).getD 0 default).options := by
  refine ⟨by decide, by decide, by decide⟩

/-- Claim C4, amended: normalization keeps exactly the rows whose
record has a non-empty `question`, a non-empty `answer` and at least
one option; neither a non-empty `explanation` nor membership of
`answer` in `options` is checked, so records violating those parts of
the spec's validity invariant do reach the session. -/
theorem normalization_validity_amended (rows : List RawRow) :
    (∀ it ∈ normalize rows, it.question ≠ "" ∧ it.answer ≠ "" ∧ it.options ≠ []) ∧
    (∀ it : QuizItem, keepItem it = false → it ∉ normalize rows) ∧
    (normalize rows).length ≤ rows.length := by
  refine ⟨fun it hit => ?_, fun it hk hit => ?_, ?_⟩
  · have h := keepItem_of_mem_normalize hit
    simp [keepItem] at h
    exact ⟨h.1.1, h.1.2, List.length_pos.mp h.2⟩
  · rw [keepItem_of_mem_normalize hit] at hk
    exact absurd hk (by simp)
  · calc (normalize rows).length
        ≤ (rows.enum.map (fun p => mkItem p.1 p.2)).length := List.length_filter_le _ _
      _ = rows.length := by rw [List.length_map, List.enum_length]

/-- Claim C4, witness: the amended soundness evaluated on a concrete
input containing one surviving and one dropped row. -/
theorem normalization_validity_amended_witness :
    (∀ it ∈ normalize [c4Row, { c4Row with answer := "" }],
        it.question ≠ "" ∧ it.answer ≠ "" ∧ it.options ≠ []) ∧
    (∀ it : QuizItem, keepItem it = false →
        it ∉ normalize [c4Row, { c4Row with answer := "" }]) ∧
    (normalize [c4Row, { c4Row with answer := "" }]).length ≤
      [c4Row, { c4Row with answer := "" }].length :=
  normalization_validity_amended [c4Row, { c4Row with answer := "" }]

/-!
Claim C5 — id assignment.
-/

/-- Claim C5, counterexample: with an invalid first row, the single
surviving record — the first (1-based position 1) of the output — has
`id = 2`: the id was assigned from the raw input position before the
filter ran, not from the post-filter output position. -/
theorem id_assignment_cex :
    (normalize [c5Bad, c5Good]).length = 1 ∧
    ((normalize [c5Bad, c5Good]).getD 0 default).id = 2 := by
  refine ⟨by decide, by decide⟩

/-- Claim C5, amended: every record of the normalized output carries
`id = i + 1` where `i` is its 0-based position in the raw input
sequence (pre-filter), i.e. ids are 1-based input positions and may
skip values when rows are dropped. -/
theorem id_assignment_amended (rows : List RawRow) (it : QuizItem)
    (h : it ∈ normalize rows) :
    ∃ i r, rows[i]? = some r ∧ it = mkItem i r ∧ it.id = i + 1 := by
  obtain ⟨p, hp, hpe⟩ := List.mem_map.mp (List.mem_filter.mp h).1
  refine ⟨p.1, p.2, List.mem_enum_iff_getElem?.mp hp, hpe.symm, ?_⟩
  rw [← hpe]
  rfl

/-- Claim C5, witness: the amended id law evaluated on the concrete
surviving record of the counterexample input. -/
theorem id_assignment_amended_witness :
    ∃ i r, [c5Bad, c5Good][i]? = some r ∧
      (normalize [c5Bad, c5Good]).getD 0 default = mkItem i r ∧
      ((normalize [c5Bad, c5Good]).getD 0 default).id = i + 1 :=
  id_assignment_amended [c5Bad, c5Good] _ (by decide)

/-!
Claim C6 — sampling bound.
-/

/-- Claim C6 (sampling bound): for every pool of quiz items, every
outcome `shuffled` of the randomized sort (any permutation of the
items), and every truncation length `n` (the program uses `n = 20`),
the sample has length `min n (len items)`, all its elements come from
`items`, and for `n ≥ len items` it is a permutation of `items`. -/
theorem sampling_bound (items shuffled : List QuizItem) (n : Nat)
    (hperm : shuffled.Perm items) :
    (sample shuffled n).length = min n items.length ∧
    (∀ x ∈ sample shuffled n, x ∈ items) ∧
    (items.length ≤ n → (sample shuffled n).Perm items) := by
  refine ⟨?_, fun x hx => hperm.mem_iff.mp (List.take_subset _ _ hx), fun hle => ?_⟩
  · rw [sample, List.length_take, hperm.length_eq]
  · rw [sample, List.take_of_length_le (by rw [hperm.length_eq]; exact hle)]
    exact hperm

/-- Claim C6, witness: the sampling bound instantiated on a concrete
two-element pool with a non-trivial shuffle and the program's `n = 20`. -/
theorem sampling_bound_witness :
    (sample [itB, itA] 20).length = min 20 [itA, itB].length ∧
    (∀ x ∈ sample [itB, itA] 20, x ∈ [itA, itB]) ∧
    ([itA, itB].length ≤ 20 → (sample [itB, itA] 20).Perm [itA, itB]) :=
  sampling_bound [itA, itB] [itB, itA] 20 (by decide)

/-!
Claim C7 — start contract.
-/

/-- Claim C7 (start contract): in every UI-reachable Login state, a
start attempt with a name that trims to empty fails (the alert flag is
set) and leaves the state untouched, while a non-blank name succeeds
and lands in an Active state with index 0, score 0, no selection and
the lock open. -/
theorem start_contract (s : SessionState) (hr : Reachable s)
    (hstep : s.step = Step.login) :
    (jsTrim s.userName = "" → handleStartQuiz s = (s, true)) ∧
    (jsTrim s.userName ≠ "" →
       (handleStartQuiz s).2 = false ∧
       (handleStartQuiz s).1.step = Step.quiz ∧
       (handleStartQuiz s).1.currentQuestionIndex = 0 ∧
       (handleStartQuiz s).1.score = 0 ∧
       (handleStartQuiz s).1.selectedOption = none ∧
       strTruthy (handleStartQuiz s).1.selectedOption = false) := by
  obtain ⟨_, _, hlogin, _, _⟩ := reachable_inv hr
  obtain ⟨hi0, hs0, hsel⟩ := hlogin hstep
  constructor
  · intro hn
    simp [handleStartQuiz, hn]
  · intro hn
    refine ⟨?_, ?_, ?_, ?_, ?_, ?_⟩ <;> simp [handleStartQuiz, hn, hi0, hs0, hsel, strTruthy]

/-- Claim C7, witness: the start contract evaluated on a concrete
reachable Login state carrying the name `"bob"`. -/
theorem start_contract_witness :
    (jsTrim ({ initState (sample (normalize [c3Row]) 20) with userName := "bob" } : SessionState).userName = "" →
       handleStartQuiz { initState (sample (normalize [c3Row]) 20) with userName := "bob" } =
         ({ initState (sample (normalize [c3Row]) 20) with userName := "bob" }, true)) ∧
    (jsTrim ({ initState (sample (normalize [c3Row]) 20) with userName := "bob" } : SessionState).userName ≠ "" →
       (handleStartQuiz { initState (sample (normalize [c3Row]) 20) with userName := "bob" }).2 = false ∧
       (handleStartQuiz { initState (sample (normalize [c3Row]) 20) with userName := "bob" }).1.step = Step.quiz ∧
       (handleStartQuiz { initState (sample (normalize [c3Row]) 20) with userName := "bob" }).1.currentQuestionIndex = 0 ∧
       (handleStartQuiz { initState (sample (normalize [c3Row]) 20) with userName := "bob" }).1.score = 0 ∧
       (handleStartQuiz { initState (sample (normalize [c3Row]) 20) with userName := "bob" }).1.selectedOption = none ∧
       strTruthy (handleStartQuiz { initState (sample (normalize [c3Row]) 20) with userName := "bob" }).1.selectedOption = false) :=
  start_contract { initState (sample (normalize [c3Row]) 20) with userName := "bob" }
    (Reachable.typeName _ "bob" (Reachable.init [c3Row] (normalize [c3Row]) (List.Perm.refl _)) rfl)
    rfl

/-!
Claim C8 — invalid call ordering.
-/

/-- Claim C8, counterexample: `advance()` invoked on a reachable Active
state with no selection (locked == false) silently advances the index —
no error of any kind is reported (the handler has no error channel at
all); likewise `selectOption` invoked in the Login phase silently
records a selection and bumps the score while the phase stays Login. -/
theorem state_error_cex :
    Reachable c8Quiz ∧
    c8Quiz.selectedOption = none ∧
    (handleNext "t" c8Quiz).1.currentQuestionIndex = c8Quiz.currentQuestionIndex + 1 ∧
    c8Login.step = Step.login ∧
    (handleOptionClick "a" c8Login).selectedOption = some "a" ∧
    (handleOptionClick "a" c8Login).score = c8Login.score + 1 ∧
    (handleOptionClick "a" c8Login).step = Step.login := by
  refine ⟨?_, by decide, by decide, by decide, by decide, by decide, by decide⟩
  exact Reachable.start _
    (Reachable.typeName _ "kim"
      (Reachable.init [c8Row, c8Row] (normalize [c8Row, c8Row]) (List.Perm.refl _)) rfl) rfl

/-- Claim C8, amended: the operations perform no precondition checks
and report no `StateError`: `advance()`'s behaviour is independent of
the lock (and of everything it overwrites), and `selectOption` ignores
the phase entirely, so precondition-violating calls silently perform
the same state change as sanctioned ones. -/
theorem state_error_amended (s : SessionState) (o now : String)
    (osel : Option String) (b : Option Bool) (e : Bool) :
    handleNext now { s with selectedOption := osel, isCorrect := b, showExplanation := e } =
      handleNext now s ∧
    (handleOptionClick o s).step = s.step ∧
    (∀ st : Step, handleOptionClick o { s with step := st } =
       { handleOptionClick o s with step := st }) := by
  refine ⟨rfl, ?_, fun st => ?_⟩
  · by_cases ht : strTruthy s.selectedOption <;> simp [handleOptionClick, ht]
  · by_cases ht : strTruthy s.selectedOption <;>
      simp [handleOptionClick, ht, currentItem]

/-- Claim C8, witness: the amended no-check behaviour evaluated on the
concrete Active state of the counterexample with a stale lock value. -/
theorem state_error_amended_witness :
    (handleNext "t" { c8Quiz with selectedOption := some "x", isCorrect := some true, showExplanation := true } =
       handleNext "t" c8Quiz) ∧
    (handleOptionClick "a" c8Quiz).step = c8Quiz.step ∧
    (∀ st : Step, handleOptionClick "a" { c8Quiz with step := st } =
       { handleOptionClick "a" c8Quiz with step := st }) :=
  state_error_amended c8Quiz "a" "t" (some "x") (some true) true

/-!
Claim C9 — selectOption performs no membership check.
-/

/-- Claim C9, counterexample: on an unlocked Active state the empty
string is accepted and recorded as the selection, but it does not lock
the question — a further call still changes the selection, so the
"locks the question" half of the claim fails for the option `""`. -/
theorem select_accepts_any_string_cex :
    Reachable c9Quiz ∧
    c9Quiz.step = Step.quiz ∧
    c9Quiz.selectedOption = none ∧
    (handleOptionClick "" c9Quiz).selectedOption = some "" ∧
    (handleOptionClick "x" (handleOptionClick "" c9Quiz)).selectedOption = some "x" := by
  refine ⟨?_, by decide, by decide, by decide, by decide⟩
  exact Reachable.start _
    (Reachable.typeName _ "joe"
      (Reachable.init [c9Row] (normalize [c9Row]) (List.Perm.refl _)) rfl) rfl

/-- Claim C9, amended: `selectOption` performs no membership check — on
an unlocked Active state any string, in the options list or not, is
accepted and recorded as the selection, and the score is incremented
exactly when the string equals `pool[index].answer` by string equality;
the question ends up locked when the string is non-empty, while the
empty string leaves it unlocked (any further call re-records the
selection). -/
theorem select_accepts_any_string_amended (s : SessionState) (o : String)
    (hstep : s.step = Step.quiz) (ht : strTruthy s.selectedOption = false)
    (hlt : s.currentQuestionIndex < s.quizItems.length) :
    (handleOptionClick o s).selectedOption = some o ∧
    ((handleOptionClick o s).score = s.score + 1 ↔ o = (currentItem s).answer) ∧
    (o ≠ "" → ∀ o2, handleOptionClick o2 (handleOptionClick o s) = handleOptionClick o s) ∧
    (o = "" → ∀ o2, (handleOptionClick o2 (handleOptionClick o s)).selectedOption = some o2) := by
  refine ⟨handleOptionClick_sel ht o, ?_, ?_, ?_⟩
  · by_cases ho : o = (currentItem s).answer <;> simp [handleOptionClick, ht, ho]
  · intro hne o2
    have h2 : strTruthy (handleOptionClick o s).selectedOption = true := by
      rw [handleOptionClick_sel ht o]
      simp [strTruthy, hne]
    exact handleOptionClick_locked h2 o2
  · intro hempty o2
    have h2 : strTruthy (handleOptionClick o s).selectedOption = false := by
      rw [handleOptionClick_sel ht o, hempty]
      simp [strTruthy]
    exact handleOptionClick_sel h2 o2

/-- Claim C9, witness: the amended contract evaluated with a string
that occurs nowhere in the current question's options. -/
theorem select_accepts_any_string_amended_witness :
    (handleOptionClick "zzz" c9Quiz).selectedOption = some "zzz" ∧
    ((handleOptionClick "zzz" c9Quiz).score = c9Quiz.score + 1 ↔
       "zzz" = (currentItem c9Quiz).answer) ∧
    ("zzz" ≠ "" → ∀ o2, handleOptionClick o2 (handleOptionClick "zzz" c9Quiz) =
       handleOptionClick "zzz" c9Quiz) ∧
    ("zzz" = "" → ∀ o2, (handleOptionClick o2 (handleOptionClick "zzz" c9Quiz)).selectedOption = some o2) :=
  select_accepts_any_string_amended c9Quiz "zzz" (by decide) (by decide) (by decide)

/-!
Claim C10 — index stays in bounds.
-/

/-- Claim C10 (index stays in bounds): through any sequence of
`start` / `selectOption` / `advance` calls (and name edits), a session
over a non-empty pool keeps `0 ≤ index < len(pool)`, and `advance()` on
the last question moves to the result phase without changing the index. -/
theorem index_in_bounds (s : SessionState) (hr : ReachableAny s)
    (hne : s.quizItems ≠ []) :
    s.currentQuestionIndex < s.quizItems.length ∧
    (∀ now, s.currentQuestionIndex = s.quizItems.length - 1 →
       (handleNext now s).1.currentQuestionIndex = s.currentQuestionIndex ∧
       (handleNext now s).1.step = Step.result) := by
  obtain ⟨_, hidx⟩ := reachableAny_poolInv hr
  refine ⟨hidx hne, fun now hlast => ?_⟩
  have hnot : ¬ s.currentQuestionIndex < s.quizItems.length - 1 := by omega
  constructor <;> simp [handleNext, finishQuiz, hnot]

/-- Claim C10, witness: the bound evaluated on a concrete reachable
state, one question into a two-question session. -/
theorem index_in_bounds_witness :
    (c10State.currentQuestionIndex < c10State.quizItems.length) ∧
    (∀ now, c10State.currentQuestionIndex = c10State.quizItems.length - 1 →
       (handleNext now c10State).1.currentQuestionIndex = c10State.currentQuestionIndex ∧
       (handleNext now c10State).1.step = Step.result) :=
  index_in_bounds c10State
    (ReachableAny.next _ "t" (ReachableAny.select _ "a" (ReachableAny.start _
      (ReachableAny.typeName _ "joe"
        (ReachableAny.init [c3Row, c3Row] (normalize [c3Row, c3Row]) (List.Perm.refl _))))))
    (by decide)

end LogicKorean
